import Mathlib

/-!
# Layer Depth Order generator — verification development

Shallow embedding of `src/config.py`, `src/generator.py` and `src/prompts.py`
(the "layer depth order" task generator).  Python integers are modelled as
`Int`; Python's floor division `//` is `Int.fdiv`; Python's float arithmetic
in the animation easing is modelled exactly over `ℚ` (the quantities involved
are small rationals); Python's `int(...)` truncation toward zero is `pyTrunc`.
Randomness (`random.randint`, `random.choice`, `random.shuffle`) is threaded
explicitly: each generation call receives the drawn shape count, per-index
offset/size/kind draws, and the shuffled copy of the palette as parameters.
Pixel rasterisation by PIL is modelled at the geometric level: a shape covers
the pixels of its ideal fill region and its fill colour is alpha-blended over
the accumulated canvas; the opaque outline stroke, the text labels and the
arrow annotation of the separated render are annotation overlays outside the
shape-compositing claims and are not modelled.
-/

namespace LayerDepth

/-- Python `//` : floor division on integers (`Int.fdiv` floors the quotient). -/
def pyFloorDiv (a b : Int) : Int := Int.fdiv a b

/-- Python `int(q)` for a rational `q`: truncation toward zero
(`Int.tdiv` is T-division, which truncates toward zero; `q.den > 0`). -/
def pyTrunc (q : ℚ) : Int := Int.tdiv q.num (q.den : Int)

/-- An RGBA colour, as the 4-tuples of `config.shape_colors`. -/
structure RGBA where
  r : Nat
  g : Nat
  b : Nat
  a : Nat
deriving DecidableEq, Repr

/-- An RGB colour, as `bg_color` / `label_color` in `config.py`. -/
structure RGB where
  r : Nat
  g : Nat
  b : Nat
deriving DecidableEq, Repr

/-- The three values of the `"type"` field drawn from
`shape_types = ["circle", "square", "triangle"]`. -/
inductive ShapeType where
  | circle
  | square
  | triangle
deriving DecidableEq, Repr

/-- One shape record as built in `_generate_task_data`
(`{"x", "y", "size", "type", "color", "layer"}`). -/
structure Shape where
  x : Int
  y : Int
  size : Int
  type : ShapeType
  color : RGBA
  layer : Nat
deriving DecidableEq, Repr

/-- Source `TaskConfig` (`config.py`): the fields the generator core reads. -/
structure Config where
  domain : String := "layer_depth"
  imageW : Int := 512
  imageH : Int := 512
  generateVideos : Bool := true
  minShapes : Nat := 3
  maxShapes : Nat := 5
  minShapeSize : Int := 80
  maxShapeSize : Int := 150
  shapeColors : List RGBA :=
    [⟨255, 100, 100, 180⟩, ⟨100, 255, 100, 180⟩, ⟨100, 100, 255, 180⟩,
     ⟨255, 255, 100, 180⟩, ⟨255, 100, 255, 180⟩, ⟨100, 255, 255, 180⟩]
  bgColor : RGB := ⟨255, 255, 255⟩
  labelColor : RGB := ⟨50, 50, 50⟩
deriving Repr

/-- The dict returned by `_generate_task_data`:
`{"shapes": ..., "num_shapes": ..., "type": "default"}`. -/
structure TaskData where
  shapes : List Shape
  numShapes : Nat
  taskType : String
deriving Repr

/-- The draws the process-wide `random` source supplies to one
`_generate_task_data` call: the shape count `n` (from
`random.randint(min_shapes, max_shapes)`), per-index position offsets
(`random.randint(-spread, spread)` each axis), sizes
(`random.randint(min_shape_size, max_shape_size)`), kinds
(`random.choice(shape_types)`), and the result of
`random.shuffle` applied to the fresh copy `list(config.shape_colors)`. -/
structure GenDraws where
  n : Nat
  offX : Nat → Int
  offY : Nat → Int
  sizeOf : Nat → Int
  kindOf : Nat → ShapeType
  shuffled : List RGBA

/-- Constant `spread = 60` in `_generate_task_data`. -/
def spread : Int := 60

/-- Source `_generate_task_data`: builds `n` shapes clustered around the canvas
center, with `layer = i` in generation order (`0 = back`), colour
`available_colors[i % len(available_colors)]` drawn from the shuffled copy. -/
def generateTaskData (cfg : Config) (d : GenDraws) : TaskData :=
  let centerX := pyFloorDiv cfg.imageW 2
  let centerY := pyFloorDiv cfg.imageH 2
  { shapes := (List.range d.n).map (fun i =>
      { x := centerX + d.offX i
        y := centerY + d.offY i
        size := d.sizeOf i
        type := d.kindOf i
        color := (d.shuffled.getD (i % d.shuffled.length) ⟨0, 0, 0, 0⟩)
        layer := i })
    numShapes := d.n
    taskType := "default" }

/-- The draws of `d` are in the ranges `_generate_task_data` samples from:
`n ∈ [min_shapes, max_shapes]`, offsets in `[-spread, spread]`, sizes in
`[min_shape_size, max_shape_size]`, and the shuffled list is a permutation
of the fresh copy of `config.shape_colors`. -/
def GenDraws.Valid (cfg : Config) (d : GenDraws) : Prop :=
  cfg.minShapes ≤ d.n ∧ d.n ≤ cfg.maxShapes ∧
  (∀ i, -spread ≤ d.offX i ∧ d.offX i ≤ spread) ∧
  (∀ i, -spread ≤ d.offY i ∧ d.offY i ≤ spread) ∧
  (∀ i, cfg.minShapeSize ≤ d.sizeOf i ∧ d.sizeOf i ≤ cfg.maxShapeSize) ∧
  d.shuffled.Perm cfg.shapeColors

/-- The sort key relation of `sorted(task_data["shapes"], key=lambda s: s["layer"])`. -/
def layerLE (a b : Shape) : Prop := a.layer ≤ b.layer

/-- The sort key relation with `reverse=True` (descending layer). -/
def layerGE (a b : Shape) : Prop := b.layer ≤ a.layer

instance : DecidableRel layerLE := fun a b =>
  inferInstanceAs (Decidable (a.layer ≤ b.layer))

instance : DecidableRel layerGE := fun a b =>
  inferInstanceAs (Decidable (b.layer ≤ a.layer))

instance : IsTotal Shape layerLE := ⟨fun a b => Nat.le_total a.layer b.layer⟩

instance : IsTrans Shape layerLE := ⟨fun _ _ _ h1 h2 => Nat.le_trans h1 h2⟩

instance : IsTotal Shape layerGE := ⟨fun a b => Nat.le_total b.layer a.layer⟩

instance : IsTrans Shape layerGE := ⟨fun _ _ _ h1 h2 => Nat.le_trans h2 h1⟩

/-- Source `sorted(shapes, key=lambda s: s["layer"])` (ascending layer). -/
def sortByLayer (l : List Shape) : List Shape := l.insertionSort layerLE

/-- Source `sorted(shapes, key=lambda s: s["layer"], reverse=True)` (descending layer).
Generated scenes carry pairwise-distinct layers, so tie order never matters. -/
def sortByLayerRev (l : List Shape) : List Shape := l.insertionSort layerGE

/-- A canvas: colour at each pixel coordinate. -/
def Canvas := Int × Int → RGBA

/-- Alpha compositing of the source fill over the accumulated pixel, the
source alpha acting as the mask weight (PIL `img.paste(temp, (0, 0), temp)`
with the RGBA layer as its own mask). -/
def blendOver (dst src : RGBA) : RGBA :=
  { r := (src.a * src.r + (255 - src.a) * dst.r) / 255
    g := (src.a * src.g + (255 - src.a) * dst.g) / 255
    b := (src.a * src.b + (255 - src.a) * dst.b) / 255
    a := (src.a * src.a + (255 - src.a) * dst.a) / 255 }

/-- The fill region drawn by `_draw_shape` with `half = size // 2`:
circle = disk of radius `half` about `(x, y)`; square = axis-aligned box of
half-extent `half`; triangle = apex `(x, y - half)`, base corners
`(x - half, y + half)` and `(x + half, y + half)` (at height `t` below the
apex the fill spans `|px - x| ≤ t / 2`). -/
def inFill (s : Shape) (p : Int × Int) : Bool :=
  let half := pyFloorDiv s.size 2
  match s.type with
  | .circle => decide ((p.1 - s.x) ^ 2 + (p.2 - s.y) ^ 2 ≤ half ^ 2)
  | .square => decide (s.x - half ≤ p.1 ∧ p.1 ≤ s.x + half ∧
      s.y - half ≤ p.2 ∧ p.2 ≤ s.y + half)
  | .triangle => decide (s.y - half ≤ p.2 ∧ p.2 ≤ s.y + half ∧
      2 * (p.1 - s.x) ≤ p.2 - (s.y - half) ∧ 2 * (s.x - p.1) ≤ p.2 - (s.y - half))

/-- Source `_draw_shape`: blend the shape's semi-transparent fill over the pixels it
covers (the opaque outline stroke is an annotation overlay, not modelled). -/
def drawShape (c : Canvas) (s : Shape) : Canvas :=
  fun p => if inFill s p then blendOver (c p) s.color else c p

/-- An all-background canvas (`Image.new` with the opaque background). -/
def canvasConst (bg : RGBA) : Canvas := fun _ => bg

/-- Draw a list of shapes, in list order, over the background. -/
def renderList (bg : RGBA) (l : List Shape) : Canvas :=
  l.foldl drawShape (canvasConst bg)

/-- The opaque background pixel `(*self.config.bg_color, 255)`. -/
def bgPixel (cfg : Config) : RGBA := ⟨cfg.bgColor.r, cfg.bgColor.g, cfg.bgColor.b, 255⟩

/-- The draw order of `_render_overlapping`:
`sorted(task_data["shapes"], key=lambda s: s["layer"])` — back to front. -/
def overlappingDrawList (td : TaskData) : List Shape := sortByLayer td.shapes

/-- Source `_render_overlapping`. -/
def renderOverlapping (cfg : Config) (td : TaskData) : Canvas :=
  renderList (bgPixel cfg) (overlappingDrawList td)

/-- Constant `margin = 40` in `_render_separated` and `_generate_video`. -/
def margin : Int := 40

/-- Source `spacing = available_width // (num_shapes + 1)` with
`available_width = width - 2 * margin`. -/
def sepSpacing (w : Int) (n : Nat) : Int :=
  pyFloorDiv (w - 2 * margin) ((n : Int) + 1)

/-- Source `new_x = margin + spacing * (i + 1)` for the `i`-th shape front-to-back. -/
def sepTargetX (w : Int) (n i : Nat) : Int :=
  margin + sepSpacing w n * ((i : Int) + 1)

/-- Source `new_y = height // 2`. -/
def sepTargetY (h : Int) : Int := pyFloorDiv h 2

/-- The front-to-back list
`sorted(task_data["shapes"], key=lambda s: s["layer"], reverse=True)` shared
by `_render_separated` and `_generate_video`. -/
def sepDrawList (td : TaskData) : List Shape := sortByLayerRev td.shapes

/-- The per-shape copies actually drawn by `_render_separated`:
`temp_shape = shape.copy()` repositioned to the separated layout
(the scene's own records are untouched). -/
def sepShapes (cfg : Config) (td : TaskData) : List Shape :=
  let shapes := sepDrawList td
  let n := shapes.length
  shapes.enum.map (fun is =>
    { is.2 with x := sepTargetX cfg.imageW n is.1, y := sepTargetY cfg.imageH })

/-- Source `_render_separated` (text labels and the arrow are annotation overlays,
not modelled). -/
def renderSeparated (cfg : Config) (td : TaskData) : Canvas :=
  renderList (bgPixel cfg) (sepShapes cfg td)

/-- Constant `hold_frames = 5` in `_generate_video`. -/
def holdFrames : Nat := 5

/-- Constant `animation_frames = 25` in `_generate_video`. -/
def animationFrames : Nat := 25

/-- The eased progress of transition frame `k`:
`progress = frame_idx / (animation_frames - 1)` followed by the ease-out
`progress = 1 - (1 - progress) ** 2` (float arithmetic modelled over `ℚ`). -/
def easedProgress (k : Nat) : ℚ :=
  1 - (1 - (k : ℚ) / ((animationFrames : ℚ) - 1)) ^ 2

/-- Linear interpolation `start + (end - start) * progress`. -/
def lerpQ (a b : Int) (p : ℚ) : ℚ := (a : ℚ) + ((b : ℚ) - (a : ℚ)) * p

/-- The per-shape copies drawn in transition frame `k` of `_generate_video`:
`temp_shape = shape.copy()` placed at
`(int(curr_x), int(curr_y))`, the interpolation of the shape's scene position
toward its separated target at the frame's eased progress. -/
def transFrameShapes (cfg : Config) (td : TaskData) (k : Nat) : List Shape :=
  let shapes := sepDrawList td
  let n := shapes.length
  let p := easedProgress k
  shapes.enum.map (fun is =>
    { is.2 with
        x := pyTrunc (lerpQ is.2.x (sepTargetX cfg.imageW n is.1) p)
        y := pyTrunc (lerpQ is.2.y (sepTargetY cfg.imageH) p) })

/-- One transition frame of `_generate_video` (fresh canvas, shapes drawn
front to back at interpolated positions). -/
def transFrame (cfg : Config) (td : TaskData) (k : Nat) : Canvas :=
  renderList (bgPixel cfg) (transFrameShapes cfg td k)

/-- The frame list built by `_generate_video`: `hold_frames` copies of
`first_image`, the `animation_frames` transition frames, then
`hold_frames * 2` copies of `final_image` (`Image.copy()` is pixel-identical,
so a copy is the same canvas function). -/
def videoFrames (cfg : Config) (td : TaskData) (firstImage finalImage : Canvas) :
    List Canvas :=
  List.replicate holdFrames firstImage ++
    (List.range animationFrames).map (transFrame cfg td) ++
    List.replicate (holdFrames * 2) finalImage

/-- The prompt pool `PROMPTS` of `prompts.py`. -/
def defaultPrompts : List String :=
  ["Identify the layer order of these overlapping shapes from front to back, then show them separated.",
   "Determine which shape is in front and which is in back. Separate them to show the depth order.",
   "These shapes overlap. Figure out the layer order based on occlusion and display them front to back."]

/-- Source `PROMPTS.get(task_type, PROMPTS["default"])`. -/
def promptPool (taskType : String) : List String :=
  ([("default", defaultPrompts)].lookup taskType).getD defaultPrompts

/-- Source `get_prompt`: `random.choice(prompts)`, the draw threaded as an index. -/
def getPrompt (taskType : String) (choice : Nat) : String :=
  (promptPool taskType).getD (choice % (promptPool taskType).length) ""

/-- The `TaskPair` record returned by `generate_task_pair`. -/
structure TaskPair where
  taskId : String
  domain : String
  prompt : String
  firstImage : Canvas
  finalImage : Canvas
  groundTruthVideo : Option String

/-- The tail of `_generate_video`:
`result = self.video_generator.create_video_from_frames(frames, video_path)`
then `return str(result) if result else None`; the encoder is the external
collaborator `encode`, a falsy result (`None`, or an empty path string)
yielding `None`. -/
def generateVideoResult (encode : List Canvas → Option String)
    (frames : List Canvas) : Option String :=
  match encode frames with
  | none => none
  | some s => if s = "" then none else some s

/-- Source `_generate_video` as consumed by `generate_task_pair`: frames are built
from the two static renders and the scene, then handed to the encoder. -/
def generateVideo (cfg : Config) (encode : List Canvas → Option String)
    (firstImage finalImage : Canvas) (td : TaskData) : Option String :=
  generateVideoResult encode (videoFrames cfg td firstImage finalImage)

/-- Source `TaskGenerator.__init__`: `self.video_generator` is present exactly when
`config.generate_videos and VideoGenerator.is_available()`. -/
def mkVideoGenerator (cfg : Config) (encoderAvailable : Bool) : Bool :=
  cfg.generateVideos && encoderAvailable

/-- Source `generate_task_pair`: generate the scene, render both states, attempt the
video only when `self.config.generate_videos and self.video_generator`, and
assemble the `TaskPair`. -/
def generateTaskPair (cfg : Config) (encoderAvailable : Bool)
    (encode : List Canvas → Option String) (taskId : String) (d : GenDraws)
    (promptChoice : Nat) : TaskPair :=
  let videoGenerator := mkVideoGenerator cfg encoderAvailable
  let td := generateTaskData cfg d
  let firstImage := renderOverlapping cfg td
  let finalImage := renderSeparated cfg td
  let videoPath : Option String :=
    if cfg.generateVideos && videoGenerator then
      generateVideo cfg encode firstImage finalImage td
    else none
  { taskId := taskId
    domain := cfg.domain
    prompt := getPrompt td.taskType promptChoice
    firstImage := firstImage
    finalImage := finalImage
    groundTruthVideo := videoPath }

end LayerDepth

namespace LayerDepth

/-! ### Helper lemmas -/

/-- Drawing shapes none of which covers `p` leaves the pixel `p` unchanged. -/
theorem foldl_drawShape_skip (p : Int × Int) :
    ∀ (l : List Shape) (c : Canvas), (∀ s ∈ l, inFill s p = false) →
      (l.foldl drawShape c) p = c p
  | [], _, _ => rfl
  | s :: l, c, h => by
    have hs : inFill s p = false := h s (List.mem_cons_self s l)
    have hl : ∀ t ∈ l, inFill t p = false := fun t ht => h t (List.mem_cons_of_mem s ht)
    rw [List.foldl_cons, foldl_drawShape_skip p l (drawShape c s) hl]
    simp [drawShape, hs]

/-- Layer projection through an `enum.map` that keeps the `layer` field. -/
theorem map_layer_enum_map (f : Nat × Shape → Shape)
    (hf : ∀ is, (f is).layer = is.2.layer) (l : List Shape) :
    (l.enum.map f).map Shape.layer = l.map Shape.layer := by
  rw [List.map_map]
  have h1 : (Shape.layer ∘ f) = (Shape.layer ∘ Prod.snd) :=
    funext fun is => hf is
  rw [h1, ← List.map_map]
  show ((List.enumFrom 0 l).map Prod.snd).map Shape.layer = _
  rw [List.enumFrom_map_snd]

/-- The `Pairwise layerGE` property transfers along equal layer projections. -/
theorem pairwise_layerGE_iff (l : List Shape) :
    List.Pairwise layerGE l ↔
      List.Pairwise (fun x y : Nat => y ≤ x) (l.map Shape.layer) := by
  rw [List.pairwise_map]
  exact Iff.rfl

/-- Inserting an element below every element of the list appends it. -/
theorem orderedInsert_of_forall_not (r : Shape → Shape → Prop) [DecidableRel r]
    (x : Shape) :
    ∀ (l : List Shape), (∀ y ∈ l, ¬ r x y) → List.orderedInsert r x l = l ++ [x]
  | [], _ => rfl
  | y :: l, h => by
    rw [List.orderedInsert, if_neg (h y (List.mem_cons_self y l)),
      orderedInsert_of_forall_not r x l (fun z hz => h z (List.mem_cons_of_mem y hz))]
    rfl

/-- Descending-layer sort of a strictly-ascending-layer list reverses it. -/
theorem sortByLayerRev_of_pairwise_lt :
    ∀ {l : List Shape}, List.Pairwise (fun a b => a.layer < b.layer) l →
      sortByLayerRev l = l.reverse := by
  intro l
  induction l with
  | nil => intro; rfl
  | cons x xs ih =>
    intro h
    have hx : ∀ y ∈ xs, x.layer < y.layer := (List.pairwise_cons.mp h).1
    have hxs := (List.pairwise_cons.mp h).2
    show List.orderedInsert layerGE x (List.insertionSort layerGE xs) = _
    have hrev : List.insertionSort layerGE xs = xs.reverse := ih hxs
    rw [hrev, orderedInsert_of_forall_not layerGE x xs.reverse
      (fun y hy => Nat.not_le.mpr (hx y (List.mem_reverse.mp hy)))]
    simp

/-- The shapes of a generated scene have strictly ascending layers. -/
theorem generated_pairwise_lt (cfg : Config) (d : GenDraws) :
    List.Pairwise (fun a b => a.layer < b.layer) (generateTaskData cfg d).shapes := by
  have h := List.pairwise_lt_range d.n
  simp only [generateTaskData]
  exact (List.pairwise_map).mpr h

/-- On a generated scene the front-to-back draw list is the reversed scene. -/
theorem sepDrawList_generated (cfg : Config) (d : GenDraws) :
    sepDrawList (generateTaskData cfg d) = (generateTaskData cfg d).shapes.reverse :=
  sortByLayerRev_of_pairwise_lt (generated_pairwise_lt cfg d)

/-- C1: For every scene produced by scene generation, the list of `layer`
values of the scene's shapes is exactly `[0, 1, ..., n-1]` in generation
order — so the multiset of layers is `{0, ..., n-1}` with each value once,
and the `i`-th generated shape (0-based) carries layer `i` (layer 0 first,
back-most). -/
theorem layers_are_range (cfg : Config) (d : GenDraws) :
    (generateTaskData cfg d).shapes.map Shape.layer = List.range d.n ∧
    (generateTaskData cfg d).shapes.length = d.n ∧
    ∀ i : Nat, ((generateTaskData cfg d).shapes[i]?).map Shape.layer =
      (List.range d.n)[i]? := by
  have hmap : (generateTaskData cfg d).shapes.map Shape.layer = List.range d.n := by
    simp [generateTaskData, List.map_map, Function.comp_def]
  refine ⟨hmap, ?_, ?_⟩
  · simpa using congrArg List.length hmap
  · intro i
    calc ((generateTaskData cfg d).shapes[i]?).map Shape.layer
        = ((generateTaskData cfg d).shapes.map Shape.layer)[i]? := by
          simp [List.getElem?_map]
      _ = (List.range d.n)[i]? := by rw [hmap]

/-- C2: The overlapping render draws its shapes in ascending layer order
(back-most first); the separated render and every animation transition frame
draw their per-shape copies in descending layer order (front-most first); and
in any draw list, a covering shape after which no further shape covers the
pixel has its fill alpha-blended on top of everything drawn before it. -/
theorem draw_orders_and_blending :
    (∀ td : TaskData, List.Pairwise layerLE (overlappingDrawList td)) ∧
    (∀ (cfg : Config) (td : TaskData), List.Pairwise layerGE (sepShapes cfg td)) ∧
    (∀ (cfg : Config) (td : TaskData) (k : Nat),
      List.Pairwise layerGE (transFrameShapes cfg td k)) ∧
    (∀ (bg : RGBA) (l1 : List Shape) (b : Shape) (l2 : List Shape) (p : Int × Int),
      (∀ s ∈ l2, inFill s p = false) → inFill b p = true →
      renderList bg (l1 ++ b :: l2) p = blendOver (renderList bg l1 p) b.color) := by
  have hGE : ∀ td : TaskData, List.Pairwise layerGE (sepDrawList td) := fun td =>
    List.sorted_insertionSort layerGE td.shapes
  refine ⟨?_, ?_, ?_, ?_⟩
  · exact fun td => List.sorted_insertionSort layerLE td.shapes
  · intro cfg td
    have hmap : (sepShapes cfg td).map Shape.layer = (sepDrawList td).map Shape.layer := by
      simp only [sepShapes]
      refine map_layer_enum_map _ ?_ _
      intro is
      rfl
    exact (pairwise_layerGE_iff _).mpr
      (hmap ▸ (pairwise_layerGE_iff _).mp (hGE td))
  · intro cfg td k
    have hmap : (transFrameShapes cfg td k).map Shape.layer =
        (sepDrawList td).map Shape.layer := by
      simp only [transFrameShapes]
      refine map_layer_enum_map _ ?_ _
      intro is
      rfl
    exact (pairwise_layerGE_iff _).mpr
      (hmap ▸ (pairwise_layerGE_iff _).mp (hGE td))
  · intro bg l1 b l2 p h2 hb
    show ((l1 ++ b :: l2).foldl drawShape (canvasConst bg)) p = _
    rw [List.foldl_append, List.foldl_cons,
      foldl_drawShape_skip p l2 _ h2]
    simp [drawShape, hb]
    rfl

/-- Witness for C2 at a concrete scene: a square covering pixel `(256, 256)`
drawn last has its fill blended over the canvas accumulated before it. -/
theorem draw_orders_and_blending_witness :
    inFill ⟨256, 256, 100, ShapeType.square, ⟨255, 100, 100, 180⟩, 1⟩ (256, 256) = true ∧
    renderList ⟨255, 255, 255, 255⟩
        [⟨200, 200, 100, ShapeType.circle, ⟨100, 255, 100, 180⟩, 0⟩,
         ⟨256, 256, 100, ShapeType.square, ⟨255, 100, 100, 180⟩, 1⟩] (256, 256) =
      blendOver
        (renderList ⟨255, 255, 255, 255⟩
          [⟨200, 200, 100, ShapeType.circle, ⟨100, 255, 100, 180⟩, 0⟩] (256, 256))
        ⟨255, 100, 100, 180⟩ :=
  ⟨by decide,
    draw_orders_and_blending.2.2.2 ⟨255, 255, 255, 255⟩
      [⟨200, 200, 100, ShapeType.circle, ⟨100, 255, 100, 180⟩, 0⟩]
      ⟨256, 256, 100, ShapeType.square, ⟨255, 100, 100, 180⟩, 1⟩ [] (256, 256)
      (by simp) (by decide)⟩


/-- C3: `_render_separated` computes `spacing = (width - 2*margin) //
(n + 1)` with `margin = 40` and places the `i`-th front-to-back shape copy at
`x = margin + spacing * (i + 1)`, `y = height // 2`; with `n = 3` shapes at
width 512 the x-positions are 148, 256, 364 for the front (layer 2), middle
(layer 1) and back (layer 0) shape respectively. -/
theorem separated_layout_positions :
    (∀ (cfg : Config) (td : TaskData) (i : Nat) (s : Shape),
      (sepDrawList td)[i]? = some s →
      (sepShapes cfg td)[i]? = some
        { s with x := margin + sepSpacing cfg.imageW td.shapes.length * ((i : Int) + 1),
                 y := pyFloorDiv cfg.imageH 2 }) ∧
    (∀ (cfg : Config) (d : GenDraws), cfg.imageW = 512 → d.n = 3 →
      (sepShapes cfg (generateTaskData cfg d)).map (fun s => (s.x, s.layer)) =
        [(148, 2), (256, 1), (364, 0)]) := by
  constructor
  · intro cfg td i s hs
    have hlen : (sepDrawList td).length = td.shapes.length :=
      (List.perm_insertionSort layerGE td.shapes).length_eq
    simp only [sepShapes, List.getElem?_map, List.enum, List.getElem?_enumFrom, hs,
      Option.map_some, Nat.zero_add, hlen]
    rfl
  · intro cfg d hw hn
    have hrev := sepDrawList_generated cfg d
    have hshapes : (generateTaskData cfg d).shapes =
        (List.range d.n).map (fun i =>
          { x := pyFloorDiv cfg.imageW 2 + d.offX i
            y := pyFloorDiv cfg.imageH 2 + d.offY i
            size := d.sizeOf i
            type := d.kindOf i
            color := (d.shuffled.getD (i % d.shuffled.length) ⟨0, 0, 0, 0⟩)
            layer := i }) := rfl
    rw [hn] at hshapes
    rw [show List.range 3 = [0, 1, 2] from rfl] at hshapes
    simp only [List.map_cons, List.map_nil] at hshapes
    simp only [sepShapes, hrev, hshapes, hw, List.reverse_cons, List.reverse_nil,
      List.nil_append, List.cons_append, List.singleton_append, List.enum,
      List.enumFrom, List.map_cons, List.map_nil, List.length_cons, List.length_nil]
    norm_num [sepTargetX, sepSpacing, margin, pyFloorDiv]
    decide


/-- Witness for C3: a concrete one-shape scene has its single separated copy
at `x = 40 + 216 = 256`, and a concrete generated 3-shape scene at width 512
separates to x-positions 148, 256, 364 front-to-back. -/
theorem separated_layout_positions_witness :
    (sepDrawList ⟨[⟨100, 200, 90, ShapeType.circle, ⟨255, 100, 100, 180⟩, 0⟩], 1, "default"⟩)[0]? =
      some ⟨100, 200, 90, ShapeType.circle, ⟨255, 100, 100, 180⟩, 0⟩ ∧
    (sepShapes {} ⟨[⟨100, 200, 90, ShapeType.circle, ⟨255, 100, 100, 180⟩, 0⟩], 1, "default"⟩)[0]? =
      some ⟨256, 256, 90, ShapeType.circle, ⟨255, 100, 100, 180⟩, 0⟩ ∧
    (sepShapes {} (generateTaskData {}
        ⟨3, fun _ => 0, fun _ => 0, fun _ => 100, fun _ => ShapeType.circle,
         [⟨255, 100, 100, 180⟩]⟩)).map (fun s => (s.x, s.layer)) =
      [(148, 2), (256, 1), (364, 0)] :=
  ⟨by decide,
    (separated_layout_positions.1 {}
      ⟨[⟨100, 200, 90, ShapeType.circle, ⟨255, 100, 100, 180⟩, 0⟩], 1, "default"⟩ 0
      ⟨100, 200, 90, ShapeType.circle, ⟨255, 100, 100, 180⟩, 0⟩ (by decide)).trans
      (by decide),
    separated_layout_positions.2 {}
      ⟨3, fun _ => 0, fun _ => 0, fun _ => 100, fun _ => ShapeType.circle,
       [⟨255, 100, 100, 180⟩]⟩ rfl rfl⟩

/-- C4: The frame list of `_generate_video` has exactly
`hold_frames + animation_frames + 2 * hold_frames = 5 + 25 + 10 = 40` frames;
the first 5 are the overlapping render and the last 10 the separated render. -/
theorem video_frames_structure (cfg : Config) (td : TaskData) :
    (videoFrames cfg td (renderOverlapping cfg td) (renderSeparated cfg td)).length = 40 ∧
    (videoFrames cfg td (renderOverlapping cfg td) (renderSeparated cfg td)).take 5 =
      List.replicate 5 (renderOverlapping cfg td) ∧
    (videoFrames cfg td (renderOverlapping cfg td) (renderSeparated cfg td)).drop 30 =
      List.replicate 10 (renderSeparated cfg td) ∧
    holdFrames = 5 ∧ animationFrames = 25 ∧ holdFrames * 2 = 10 := by
  refine ⟨?_, ?_, ?_, rfl, rfl, rfl⟩
  · simp [videoFrames, holdFrames, animationFrames]
  · have h : (List.replicate holdFrames (renderOverlapping cfg td)).length = 5 := by
      simp [holdFrames]
    calc (videoFrames cfg td (renderOverlapping cfg td) (renderSeparated cfg td)).take 5
        = (List.replicate holdFrames (renderOverlapping cfg td) ++
            ((List.range animationFrames).map (transFrame cfg td) ++
              List.replicate (holdFrames * 2) (renderSeparated cfg td))).take 5 := by
          simp [videoFrames]
      _ = List.replicate 5 (renderOverlapping cfg td) := by
          rw [List.take_left' h]
          simp [holdFrames]
  · have h : (List.replicate holdFrames (renderOverlapping cfg td) ++
        (List.range animationFrames).map (transFrame cfg td)).length = 30 := by
      simp [holdFrames, animationFrames]
    calc (videoFrames cfg td (renderOverlapping cfg td) (renderSeparated cfg td)).drop 30
        = ((List.replicate holdFrames (renderOverlapping cfg td) ++
            (List.range animationFrames).map (transFrame cfg td)) ++
              List.replicate (holdFrames * 2) (renderSeparated cfg td)).drop 30 := by
          simp [videoFrames]
      _ = List.replicate 10 (renderSeparated cfg td) := by
          rw [List.drop_left' h]
          simp [holdFrames]


/-- Applying `int()` to an integer-valued rational returns that integer. -/
theorem pyTrunc_intCast (a : Int) : pyTrunc (a : ℚ) = a := by
  simp [pyTrunc, Rat.num_intCast, Rat.den_intCast]

/-- Interpolation at progress 0 is the start position. -/
theorem lerpQ_zero (a b : Int) : lerpQ a b 0 = (a : ℚ) := by
  simp [lerpQ]

/-- Interpolation at progress 1 is the end position. -/
theorem lerpQ_one (a b : Int) : lerpQ a b 1 = (b : ℚ) := by
  simp [lerpQ]

/-- The ease-out progress at the first transition frame is 0. -/
theorem easedProgress_zero : easedProgress 0 = 0 := by
  norm_num [easedProgress, animationFrames]

/-- The ease-out progress at the last transition frame is 1. -/
theorem easedProgress_last : easedProgress (animationFrames - 1) = 1 := by
  norm_num [easedProgress, animationFrames]

/-- The ease-out progress is monotone over the transition frames. -/
theorem easedProgress_mono {k k' : Nat} (h : k ≤ k') (h24 : k' ≤ animationFrames - 1) :
    easedProgress k ≤ easedProgress k' := by
  have hk : (k : ℚ) ≤ (k' : ℚ) := by exact_mod_cast h
  have hk24 : (k' : ℚ) ≤ 24 := by
    have : k' ≤ 24 := by simpa [animationFrames] using h24
    exact_mod_cast this
  simp only [easedProgress, animationFrames]
  norm_num
  nlinarith [mul_nonneg (sub_nonneg.mpr hk)
    (by nlinarith : (0 : ℚ) ≤ 2 - (k : ℚ) / 24 - (k' : ℚ) / 24)]

/-- At `k = 0` every interpolated copy sits at its original scene position. -/
theorem transFrameShapes_zero (cfg : Config) (td : TaskData) :
    transFrameShapes cfg td 0 = sepDrawList td := by
  simp only [transFrameShapes]
  have h1 : ((sepDrawList td).enum.map fun is =>
      ({ is.2 with
          x := pyTrunc (lerpQ is.2.x
            (sepTargetX cfg.imageW (sepDrawList td).length is.1) (easedProgress 0))
          y := pyTrunc (lerpQ is.2.y (sepTargetY cfg.imageH) (easedProgress 0)) } : Shape)) =
      (sepDrawList td).enum.map Prod.snd := by
    apply List.map_congr_left
    intro is _
    rw [easedProgress_zero, lerpQ_zero, lerpQ_zero, pyTrunc_intCast, pyTrunc_intCast]
  rw [h1]
  show ((List.enumFrom 0 (sepDrawList td)).map Prod.snd) = _
  rw [List.enumFrom_map_snd]

/-- At `k = animation_frames - 1` every interpolated copy sits exactly at its
separated-layout target. -/
theorem transFrameShapes_last (cfg : Config) (td : TaskData) :
    transFrameShapes cfg td (animationFrames - 1) = sepShapes cfg td := by
  simp only [transFrameShapes, sepShapes]
  apply List.map_congr_left
  intro is _
  rw [easedProgress_last, lerpQ_one, lerpQ_one, pyTrunc_intCast, pyTrunc_intCast]

/-- C5: The eased progress of transition frame `k` is
`1 - (1 - k/(A-1))^2`, monotone non-decreasing in `k`, equal to 0 at `k = 0`
and 1 at `k = A-1`; every shape copy in frame `k` is placed at the truncated
linear interpolation of its scene position toward its layout target, all
using that same eased progress (synchronized motion); hence at `k = 0` the
copies coincide with the scene's shapes and at `k = A-1` with the separated
layout copies. -/
theorem transition_progress_and_interpolation :
    (∀ k k' : Nat, k ≤ k' → k' ≤ animationFrames - 1 →
      easedProgress k ≤ easedProgress k') ∧
    easedProgress 0 = 0 ∧
    easedProgress (animationFrames - 1) = 1 ∧
    (∀ (cfg : Config) (td : TaskData) (k i : Nat) (s : Shape),
      (sepDrawList td)[i]? = some s →
      (transFrameShapes cfg td k)[i]? = some
        { s with
            x := pyTrunc (lerpQ s.x (sepTargetX cfg.imageW td.shapes.length i)
              (easedProgress k))
            y := pyTrunc (lerpQ s.y (sepTargetY cfg.imageH) (easedProgress k)) }) ∧
    (∀ (cfg : Config) (td : TaskData), transFrameShapes cfg td 0 = sepDrawList td) ∧
    (∀ (cfg : Config) (td : TaskData),
      transFrameShapes cfg td (animationFrames - 1) = sepShapes cfg td) := by
  refine ⟨fun _ _ h h24 => easedProgress_mono h h24, easedProgress_zero,
    easedProgress_last, ?_, transFrameShapes_zero, transFrameShapes_last⟩
  intro cfg td k i s hs
  have hlen : (sepDrawList td).length = td.shapes.length :=
    (List.perm_insertionSort layerGE td.shapes).length_eq
  simp only [transFrameShapes, List.getElem?_map, List.enum, List.getElem?_enumFrom, hs,
    Option.map_some, Nat.zero_add, hlen]
  rfl


/-- Witness for C5: progress grows from frame 1 to frame 2, and in frame 0 a
concrete shape copy still sits at its original scene position. -/
theorem transition_progress_and_interpolation_witness :
    easedProgress 1 ≤ easedProgress 2 ∧
    (transFrameShapes ({ imageW := 104 } : Config)
        ⟨[⟨0, 0, 100, ShapeType.square, ⟨255, 100, 100, 180⟩, 0⟩], 1, "default"⟩ 0)[0]? =
      some ⟨0, 0, 100, ShapeType.square, ⟨255, 100, 100, 180⟩, 0⟩ :=
  ⟨transition_progress_and_interpolation.1 1 2 (by norm_num)
      (by norm_num [animationFrames]),
    (transition_progress_and_interpolation.2.2.2.1 ({ imageW := 104 } : Config)
      ⟨[⟨0, 0, 100, ShapeType.square, ⟨255, 100, 100, 180⟩, 0⟩], 1, "default"⟩ 0 0
      ⟨0, 0, 100, ShapeType.square, ⟨255, 100, 100, 180⟩, 0⟩ (by decide)).trans
      (by rw [easedProgress_zero, lerpQ_zero, lerpQ_zero, pyTrunc_intCast])⟩


/-- The x-coordinates of the separated copies, drawn front to back. -/
def sepXs (cfg : Config) (td : TaskData) : List Int :=
  (sepShapes cfg td).map Shape.x

/-- The extremal-position property of the separated layout: the first
(front-most) copy has a strictly smaller `x` than every other copy, and the
last (back-most) copy a strictly larger `x` than every other copy. -/
def FrontBackExtremal (cfg : Config) (td : TaskData) : Prop :=
  (∀ (i : Nat) (x0 xi : Int), 0 < i →
    (sepXs cfg td)[0]? = some x0 → (sepXs cfg td)[i]? = some xi → x0 < xi) ∧
  (∀ (i : Nat) (xl xi : Int), i + 1 < (sepXs cfg td).length →
    (sepXs cfg td)[(sepXs cfg td).length - 1]? = some xl →
    (sepXs cfg td)[i]? = some xi → xi < xl)

/-- Counterexample to C6 as stated: at canvas width 82 with 2 shapes the
spacing floors to `(82 - 80) // 3 = 0`, so both separated copies sit at
`x = 40` and the front-most copy is not strictly left of the back-most. -/
theorem front_back_extremal_counterexample :
    ¬ (∀ (cfg : Config) (d : GenDraws), 1 ≤ d.n →
        FrontBackExtremal cfg (generateTaskData cfg d)) := by
  intro h
  have hc := (h ({ imageW := 82 } : Config)
      ⟨2, fun _ => 0, fun _ => 0, fun _ => 100, fun _ => ShapeType.circle,
        [⟨255, 100, 100, 180⟩]⟩ (by norm_num)).1 1 40 40 (by norm_num)
      (by decide) (by decide)
  exact absurd hc (by norm_num)

/-- C6 (amended): whenever the computed spacing is at least 1 (in particular
for the default 512-wide canvas with any 1-431 shapes), the front-most copy
(layer `n-1`, drawn first) has the strictly smallest `x` and the back-most
copy (layer 0, drawn last) the strictly largest `x`. -/
theorem front_back_extremal (cfg : Config) (td : TaskData)
    (hsp : 1 ≤ sepSpacing cfg.imageW td.shapes.length) :
    FrontBackExtremal cfg td := by
  have hlen : (sepDrawList td).length = td.shapes.length :=
    (List.perm_insertionSort layerGE td.shapes).length_eq
  have hxs : sepXs cfg td = (List.range (sepDrawList td).length).map
      (fun i => sepTargetX cfg.imageW (sepDrawList td).length i) := by
    simp only [sepXs, sepShapes, List.map_map]
    have h1 : ((fun s => s.x) ∘ fun is : Nat × Shape =>
        ({ is.2 with x := sepTargetX cfg.imageW (sepDrawList td).length is.1,
                     y := sepTargetY cfg.imageH } : Shape)) =
        ((fun i => sepTargetX cfg.imageW (sepDrawList td).length i) ∘ Prod.fst) :=
      funext fun is => rfl
    rw [h1, ← List.map_map]
    show ((List.enumFrom 0 (sepDrawList td)).map Prod.fst).map _ = _
    rw [List.enumFrom_map_fst, ← List.range_eq_range']
  have hpw : List.Pairwise (· < ·) (sepXs cfg td) := by
    rw [hxs]
    refine List.Pairwise.map _ ?_ (List.pairwise_lt_range _)
    intro a b hab
    have hsp' : 0 < sepSpacing cfg.imageW td.shapes.length :=
      lt_of_lt_of_le Int.zero_lt_one hsp
    have hab' : ((a : Int) + 1) < ((b : Int) + 1) := by exact_mod_cast Nat.succ_lt_succ hab
    simp only [sepTargetX, hlen]
    exact add_lt_add_left (mul_lt_mul_of_pos_left hab' hsp') margin
  rw [List.pairwise_iff_getElem] at hpw
  constructor
  · intro i x0 xi hi h0 hxi
    obtain ⟨hilen, hxi'⟩ := List.getElem?_eq_some_iff.mp hxi
    obtain ⟨h0len, h0'⟩ := List.getElem?_eq_some_iff.mp h0
    have := hpw 0 i h0len hilen hi
    rw [h0', hxi'] at this
    exact this
  · intro i xl xi hi hl hxi
    obtain ⟨hllen, hl'⟩ := List.getElem?_eq_some_iff.mp hl
    obtain ⟨hilen, hxi'⟩ := List.getElem?_eq_some_iff.mp hxi
    have hlt : i < (sepXs cfg td).length - 1 := by omega
    have := hpw i ((sepXs cfg td).length - 1) hilen hllen hlt
    rw [hl', hxi'] at this
    exact this

/-- Witness for C6 (amended): a concrete two-shape scene on the default
512-wide canvas has spacing 144 ≥ 1 and satisfies the extremal property. -/
theorem front_back_extremal_witness :
    1 ≤ sepSpacing (({} : Config)).imageW
        (⟨[⟨0, 0, 100, ShapeType.circle, ⟨255, 100, 100, 180⟩, 0⟩,
           ⟨5, 5, 100, ShapeType.circle, ⟨255, 100, 100, 180⟩, 1⟩], 2, "default"⟩ :
          TaskData).shapes.length ∧
    FrontBackExtremal {}
      ⟨[⟨0, 0, 100, ShapeType.circle, ⟨255, 100, 100, 180⟩, 0⟩,
        ⟨5, 5, 100, ShapeType.circle, ⟨255, 100, 100, 180⟩, 1⟩], 2, "default"⟩ :=
  ⟨by decide, front_back_extremal _ _ (by decide)⟩


/-- C7: For a single-shape scene the spacing divisor `n + 1` is 2 (never
zero), and the lone separated copy sits at the canvas center
`(width // 2, height // 2)` for every canvas width: `40 + (w - 80) // 2 = w // 2`. -/
theorem single_shape_centered (cfg : Config) (td : TaskData)
    (h : td.shapes.length = 1) :
    ((td.shapes.length : Int) + 1 = 2) ∧
    (sepShapes cfg td).map (fun s => (s.x, s.y)) =
      [(pyFloorDiv cfg.imageW 2, pyFloorDiv cfg.imageH 2)] := by
  obtain ⟨s, hs⟩ := List.length_eq_one.mp h
  refine ⟨by rw [h]; norm_num, ?_⟩
  have hdl : sepDrawList td = [s] := by
    rw [sepDrawList, hs]
    rfl
  simp only [sepShapes, hdl, List.length_cons, List.length_nil, List.enum,
    List.enumFrom, List.map_cons, List.map_nil, sepTargetX, sepTargetY, sepSpacing,
    margin, pyFloorDiv]
  norm_num
  rw [Int.fdiv_eq_ediv _ (by norm_num), Int.fdiv_eq_ediv _ (by norm_num)]
  omega

/-- Witness for C7: a concrete one-shape scene on the default 512×512 canvas
is placed at the center `(256, 256)`. -/
theorem single_shape_centered_witness :
    (⟨[⟨100, 399, 90, ShapeType.triangle, ⟨255, 100, 100, 180⟩, 0⟩], 1, "default"⟩ :
      TaskData).shapes.length = 1 ∧
    (sepShapes {}
        ⟨[⟨100, 399, 90, ShapeType.triangle, ⟨255, 100, 100, 180⟩, 0⟩], 1, "default"⟩).map
      (fun s => (s.x, s.y)) = [(256, 256)] :=
  ⟨rfl,
    ((single_shape_centered {}
      ⟨[⟨100, 399, 90, ShapeType.triangle, ⟨255, 100, 100, 180⟩, 0⟩], 1, "default"⟩
      rfl).2).trans (by decide)⟩

/-- Source `_render_overlapping` as a state transformer on the scene: the loop only
reads `task_data["shapes"]`, so the scene after the call is the scene before. -/
def renderOverlappingRun (cfg : Config) (td : TaskData) : Canvas × TaskData :=
  (renderOverlapping cfg td, td)

/-- Source `_render_separated` as a state transformer on the scene: each iteration
writes the new position into `temp_shape = shape.copy()` (the record-update
copy in `sepShapes`), never into the scene's own records. -/
def renderSeparatedRun (cfg : Config) (td : TaskData) : Canvas × TaskData :=
  (renderSeparated cfg td, td)

/-- Source `_generate_video`'s frame construction as a state transformer on the
scene: interpolated positions go to per-frame `shape.copy()` records only. -/
def generateVideoFramesRun (cfg : Config) (td : TaskData)
    (firstImage finalImage : Canvas) : List Canvas × TaskData :=
  (videoFrames cfg td firstImage finalImage, td)

/-- The per-task render pipeline of `generate_task_pair`: overlapping render,
separated render, then video-frame synthesis, threading the scene through. -/
def pipelineRun (cfg : Config) (td : TaskData) :
    (Canvas × Canvas × List Canvas) × TaskData :=
  let fr := renderOverlappingRun cfg td
  let fn := renderSeparatedRun cfg fr.2
  let vv := generateVideoFramesRun cfg fn.2 fr.1 fn.1
  ((fr.1, fn.1, vv.1), vv.2)

/-- C8: After the overlapping render, the separated render and the full
video-frame synthesis have run, the scene still holds exactly its originally
generated shape records; the separated render repositions per-shape copies
that keep the original size, kind, colour and layer. -/
theorem scene_immutable_after_renders (cfg : Config) (td : TaskData) :
    (pipelineRun cfg td).2 = td ∧
    (∀ i : Nat, (pipelineRun cfg td).2.shapes[i]? = td.shapes[i]?) ∧
    (sepShapes cfg td).map (fun s => (s.size, s.type, s.color, s.layer)) =
      (sepDrawList td).map (fun s => (s.size, s.type, s.color, s.layer)) := by
  refine ⟨rfl, fun _ => rfl, ?_⟩
  simp only [sepShapes, List.map_map]
  have h1 : ((fun s : Shape => (s.size, s.type, s.color, s.layer)) ∘
      fun is : Nat × Shape =>
        ({ is.2 with x := sepTargetX cfg.imageW (sepDrawList td).length is.1,
                     y := sepTargetY cfg.imageH } : Shape)) =
      ((fun s : Shape => (s.size, s.type, s.color, s.layer)) ∘ Prod.snd) :=
    funext fun _ => rfl
  rw [h1, ← List.map_map]
  show ((List.enumFrom 0 (sepDrawList td)).map Prod.snd).map _ = _
  rw [List.enumFrom_map_snd]


/-- C9: If video generation is disabled, the encoder is unavailable, or the
encoder returns a falsy result (`None` or an empty path), `generate_task_pair`
still returns a complete task pair: both static renders present and
`ground_truth_video = None`. -/
theorem video_failure_graceful (cfg : Config) (avail : Bool)
    (encode : List Canvas → Option String) (taskId : String) (d : GenDraws)
    (promptChoice : Nat)
    (h : cfg.generateVideos = false ∨ avail = false ∨
      encode (videoFrames cfg (generateTaskData cfg d)
        (renderOverlapping cfg (generateTaskData cfg d))
        (renderSeparated cfg (generateTaskData cfg d))) = none ∨
      encode (videoFrames cfg (generateTaskData cfg d)
        (renderOverlapping cfg (generateTaskData cfg d))
        (renderSeparated cfg (generateTaskData cfg d))) = some "") :
    (generateTaskPair cfg avail encode taskId d promptChoice).groundTruthVideo = none ∧
    (generateTaskPair cfg avail encode taskId d promptChoice).firstImage =
      renderOverlapping cfg (generateTaskData cfg d) ∧
    (generateTaskPair cfg avail encode taskId d promptChoice).finalImage =
      renderSeparated cfg (generateTaskData cfg d) := by
  refine ⟨?_, rfl, rfl⟩
  simp only [generateTaskPair, mkVideoGenerator]
  rcases h with h | h | h | h
  · simp [h]
  · simp [h]
  · split
    · simp [generateVideo, generateVideoResult, h]
    · rfl
  · split
    · simp [generateVideo, generateVideoResult, h]
    · rfl

/-- Witness for C9: with video generation disabled in the configuration, a
concrete task pair still carries both renders and no video. -/
theorem video_failure_graceful_witness :
    (generateTaskPair ({ generateVideos := false } : Config) true (fun _ => none)
        "t0" ⟨1, fun _ => 0, fun _ => 0, fun _ => 100, fun _ => ShapeType.circle,
          [⟨255, 100, 100, 180⟩]⟩ 0).groundTruthVideo = none ∧
    (generateTaskPair ({ generateVideos := false } : Config) true (fun _ => none)
        "t0" ⟨1, fun _ => 0, fun _ => 0, fun _ => 100, fun _ => ShapeType.circle,
          [⟨255, 100, 100, 180⟩]⟩ 0).firstImage =
      renderOverlapping ({ generateVideos := false } : Config)
        (generateTaskData ({ generateVideos := false } : Config)
          ⟨1, fun _ => 0, fun _ => 0, fun _ => 100, fun _ => ShapeType.circle,
            [⟨255, 100, 100, 180⟩]⟩) ∧
    (generateTaskPair ({ generateVideos := false } : Config) true (fun _ => none)
        "t0" ⟨1, fun _ => 0, fun _ => 0, fun _ => 100, fun _ => ShapeType.circle,
          [⟨255, 100, 100, 180⟩]⟩ 0).finalImage =
      renderSeparated ({ generateVideos := false } : Config)
        (generateTaskData ({ generateVideos := false } : Config)
          ⟨1, fun _ => 0, fun _ => 0, fun _ => 100, fun _ => ShapeType.circle,
            [⟨255, 100, 100, 180⟩]⟩) :=
  video_failure_graceful ({ generateVideos := false } : Config) true (fun _ => none)
    "t0" ⟨1, fun _ => 0, fun _ => 0, fun _ => 100, fun _ => ShapeType.circle,
      [⟨255, 100, 100, 180⟩]⟩ 0 (Or.inl rfl)

/-- Source `_generate_task_data` as a state transformer on the configuration:
`available_colors = list(self.config.shape_colors)` copies the palette and
`random.shuffle(available_colors)` permutes only that fresh copy, so the
configuration object is returned unchanged. -/
def generateTaskDataRun (cfg : Config) (d : GenDraws) : TaskData × Config :=
  (generateTaskData cfg d, cfg)

/-- Any number of consecutive `_generate_task_data` calls, rethreading the
configuration each time. -/
def generateManyRun (cfg : Config) (ds : List GenDraws) : Config :=
  ds.foldl (fun c dr => (generateTaskDataRun c dr).2) cfg

/-- C10: After any number of `_generate_task_data` calls the configuration —
in particular its `shape_colors` palette, elements and order — is unchanged,
and each generated shape's colour is read from the shuffled copy at index
`i % len(palette)`. -/
theorem palette_never_mutated :
    (∀ (cfg : Config) (ds : List GenDraws),
      generateManyRun cfg ds = cfg ∧
      (generateManyRun cfg ds).shapeColors = cfg.shapeColors) ∧
    (∀ (cfg : Config) (d : GenDraws), d.shuffled.Perm cfg.shapeColors →
      ∀ i : Nat,
        ((generateTaskData cfg d).shapes[i]?).map Shape.color =
          if i < d.n then
            some (d.shuffled.getD (i % d.shuffled.length) ⟨0, 0, 0, 0⟩)
          else none) := by
  constructor
  · intro cfg ds
    have hrun : generateManyRun cfg ds = cfg := by
      induction ds with
      | nil => rfl
      | cons dr ds ih => exact ih
    exact ⟨hrun, by rw [hrun]⟩
  · intro cfg d _ i
    by_cases hi : i < d.n
    · simp [generateTaskData, List.getElem?_map, List.getElem?_range hi, hi]
    · have hnone : (generateTaskData cfg d).shapes[i]? = none := by
        apply List.getElem?_eq_none
        simp only [generateTaskData, List.length_map, List.length_range]
        omega
      simp [hnone, hi]

/-- Witness for C10: one call with the identity shuffle of the default
palette leaves the configuration unchanged and colours shape 0 with the
first palette entry. -/
theorem palette_never_mutated_witness :
    generateManyRun {}
        [⟨3, fun _ => 0, fun _ => 0, fun _ => 100, fun _ => ShapeType.circle,
          [⟨255, 100, 100, 180⟩, ⟨100, 255, 100, 180⟩, ⟨100, 100, 255, 180⟩,
           ⟨255, 255, 100, 180⟩, ⟨255, 100, 255, 180⟩, ⟨100, 255, 255, 180⟩]⟩] = {} ∧
    ((generateTaskData {}
        ⟨3, fun _ => 0, fun _ => 0, fun _ => 100, fun _ => ShapeType.circle,
          [⟨255, 100, 100, 180⟩, ⟨100, 255, 100, 180⟩, ⟨100, 100, 255, 180⟩,
           ⟨255, 255, 100, 180⟩, ⟨255, 100, 255, 180⟩,
           ⟨100, 255, 255, 180⟩]⟩).shapes[0]?).map Shape.color =
      some ⟨255, 100, 100, 180⟩ :=
  ⟨(palette_never_mutated.1 {} _).1,
    (palette_never_mutated.2 {}
      ⟨3, fun _ => 0, fun _ => 0, fun _ => 100, fun _ => ShapeType.circle,
        [⟨255, 100, 100, 180⟩, ⟨100, 255, 100, 180⟩, ⟨100, 100, 255, 180⟩,
         ⟨255, 255, 100, 180⟩, ⟨255, 100, 255, 180⟩, ⟨100, 255, 255, 180⟩]⟩
      (List.Perm.refl _) 0).trans (by decide)⟩

end LayerDepth
